import Mathlib

/-!
Rundeck provider: discovery and naming.

A shallow embedding of `providers/rundeck/job.go`, `providers/rundeck/project.go` and
`providers/rundeck/rundeck_provider.go`, followed by the properties the specification states
about them.

Conventions of the embedding:

* a Go `string` is its sequence of bytes (`GoString`); a byte is a natural number below 256,
  a rune is an integer;
* an `error` is represented by its message, `nil` by `none`;
* the network and standard output are explicit state (`World`); what the remote side answers
  is a parameter (`Env`);
* a run-time panic is the result `none` of a function returning `Option`.
-/

/-! ## Go strings and the library functions used on them -/

/-- A Go string: a sequence of bytes, not necessarily valid UTF-8. -/
abbrev GoString := List Nat

/-- The constant `utf8.RuneError`, U+FFFD. -/
def utf8.RuneError : Int := 0xFFFD

/-- The function `utf8.AppendRune` on an empty buffer: the UTF-8 encoding of a rune. Values out
of range and surrogates are encoded as `utf8.RuneError`. -/
def utf8.AppendRune (r : Int) : GoString :=
  if 0 ≤ r ∧ r ≤ 0x7F then [r.toNat]
  else if 0 ≤ r ∧ r ≤ 0x7FF then [0xC0 + r.toNat / 64, 0x80 + r.toNat % 64]
  else if r < 0 ∨ 0x10FFFF < r ∨ (0xD800 ≤ r ∧ r ≤ 0xDFFF) then [0xEF, 0xBF, 0xBD]
  else if r ≤ 0xFFFF then
    [0xE0 + r.toNat / 4096, 0x80 + r.toNat / 64 % 64, 0x80 + r.toNat % 64]
  else
    [0xF0 + r.toNat / 262144, 0x80 + r.toNat / 4096 % 64, 0x80 + r.toNat / 64 % 64,
      0x80 + r.toNat % 64]

/-- A string constant of the source, as the bytes of its UTF-8 encoding. -/
def lit (s : String) : GoString :=
  s.data.flatMap fun c => utf8.AppendRune c.toNat

/-- Whether `b` is a UTF-8 continuation byte within `lo..hi`. -/
def utf8.inRange (lo hi b : Nat) : Bool := decide (lo ≤ b) && decide (b ≤ hi)

/-- The function `utf8.DecodeRuneInString`: the first rune of `s` and its width in bytes. An
empty string gives `(RuneError, 0)`, an invalid or truncated encoding `(RuneError, 1)`. -/
def utf8.DecodeRuneInString : GoString → Int × Nat
  | [] => (utf8.RuneError, 0)
  | s0 :: rest =>
    if s0 < 0x80 then ((s0 : Int), 1)
    else if s0 < 0xC2 then (utf8.RuneError, 1)
    else if s0 < 0xE0 then
      match rest with
      | s1 :: _ =>
        if utf8.inRange 0x80 0xBF s1 then (((s0 % 32 * 64 + s1 % 64 : Nat) : Int), 2)
        else (utf8.RuneError, 1)
      | _ => (utf8.RuneError, 1)
    else if s0 < 0xF0 then
      match rest with
      | s1 :: s2 :: _ =>
        if utf8.inRange (if s0 = 0xE0 then 0xA0 else 0x80) (if s0 = 0xED then 0x9F else 0xBF) s1
            && utf8.inRange 0x80 0xBF s2 then
          (((s0 % 16 * 4096 + s1 % 64 * 64 + s2 % 64 : Nat) : Int), 3)
        else (utf8.RuneError, 1)
      | _ => (utf8.RuneError, 1)
    else if s0 < 0xF5 then
      match rest with
      | s1 :: s2 :: s3 :: _ =>
        if utf8.inRange (if s0 = 0xF0 then 0x90 else 0x80) (if s0 = 0xF4 then 0x8F else 0xBF) s1
            && utf8.inRange 0x80 0xBF s2 && utf8.inRange 0x80 0xBF s3 then
          (((s0 % 8 * 262144 + s1 % 64 * 4096 + s2 % 64 * 64 + s3 % 64 : Nat) : Int), 4)
        else (utf8.RuneError, 1)
      | _ => (utf8.RuneError, 1)
    else (utf8.RuneError, 1)

/-- The runes a `for _, c := range s` loop visits, with `fuel` bounding the number of
iterations. Every iteration consumes at least one byte. -/
def rangeRunesAux : Nat → GoString → List Int
  | 0, _ => []
  | _ + 1, [] => []
  | fuel + 1, b :: rest =>
    let d := utf8.DecodeRuneInString (b :: rest)
    d.1 :: rangeRunesAux fuel ((b :: rest).drop d.2)

/-- The runes a `for _, c := range s` loop visits. The length of `s` is enough fuel, see
`rangeRunes_cons`. -/
def rangeRunes (s : GoString) : List Int := rangeRunesAux s.length s

/-- The function `strings.Map`: every rune of `s` is replaced by `mapping` of it, and dropped
when that is negative. -/
def strings.Map (mapping : Int → Int) (s : GoString) : GoString :=
  (rangeRunes s).flatMap fun c =>
    let r := mapping c
    if 0 ≤ r then utf8.AppendRune r else []

/-- The function `strings.Join`. -/
def strings.Join : List GoString → GoString → GoString
  | [], _ => []
  | [a], _ => a
  | a :: b :: rest, sep => a ++ sep ++ strings.Join (b :: rest) sep

/-- The decimal digits of `n`, as `%d` prints them. -/
def strconv.Itoa (n : Int) : GoString := lit (toString n)

/-- The `i`-th character of the standard base64 alphabet. -/
def base64.encodeStd (i : Nat) : Nat :=
  (lit "ABCDEFGHIJKLMNOPQRSTUVWXYZabcdefghijklmnopqrstuvwxyz0123456789+/").getD i 0

/-- The function `base64.StdEncoding.EncodeToString`: three bytes become four characters, and
an incomplete last group is padded with `=`. -/
def base64.EncodeToString : GoString → GoString
  | [] => []
  | [a] => [encodeStd (a / 4), encodeStd (a % 4 * 16), 0x3D, 0x3D]
  | [a, b] =>
    [encodeStd (a / 4), encodeStd (a % 4 * 16 + b / 16), encodeStd (b % 16 * 4), 0x3D]
  | a :: b :: c :: rest =>
    [encodeStd (a / 4), encodeStd (a % 4 * 16 + b / 16), encodeStd (b % 16 * 4 + c / 64),
      encodeStd (c % 64)] ++ base64.EncodeToString rest

/-! ## Data model -/

/-- A Go `error`, represented by its message. -/
abbrev error := GoString

/-- A value stored behind `interface{}` in the generator's arguments. -/
inductive Value where
  | string (s : GoString)
  | bool (b : Bool)
deriving DecidableEq, Repr

/-- A type assertion `v.(string)` on the result of a map lookup; `none` is the panic on a
missing key (nil interface) or a value of another type. -/
def Value.assertString : Option Value → Option GoString
  | some (Value.string s) => some s
  | _ => none

/-- Modelled from the spec: `terraformutils.Resource` is not among the source files. Following
the specification's `CanonicalResource{remoteID, localName, kind, providerTag, dependencyRefs}`,
a resource records the five arguments it is constructed from. -/
structure Resource where
  remoteID : GoString
  localName : GoString
  kind : GoString
  providerTag : GoString
  dependencyRefs : List GoString
deriving DecidableEq, Repr

/-- Modelled from the spec: `terraformutils.NewSimpleResource` is not among the source files;
it builds the `CanonicalResource` holding its arguments, in the order the callers pass them. -/
def NewSimpleResource (id resourceName resourceType provider : GoString)
    (refs : List GoString) : Resource :=
  { remoteID := id, localName := resourceName, kind := resourceType, providerTag := provider,
    dependencyRefs := refs }

/-- Modelled from the spec: `terraformutils.Service`, which `RundeckService` embeds, is not
among the source files. It holds what the setters called by `InitService` store (name,
verbosity, provider name, and the configuration as a key-value bag) and the resource list the
generators append to. A map is an association list read by `List.lookup`. -/
structure Service where
  Name : GoString := []
  Resources : List Resource := []
  ProviderName : GoString := []
  Args : List (GoString × Value) := []
  Verbose : Bool := false
deriving DecidableEq, Repr

/-- The type `JobGenerator`. -/
structure JobGenerator extends Service
deriving DecidableEq, Repr

/-- The type `ProjectGenerator`. -/
structure ProjectGenerator extends Service
deriving DecidableEq, Repr

/-- The type `RundeckJob`. -/
structure RundeckJob where
  ID : GoString := []
  Name : GoString := []
  Project : GoString := []
  Group : GoString := []
  Description : GoString := []
deriving DecidableEq, Repr

/-- The type `RundeckProject`. -/
structure RundeckProject where
  Name : GoString := []
  Description : GoString := []
deriving DecidableEq, Repr

/-! ## HTTP -/

/-- An `http.Request`: method, URL, the user name and password the parsed URL carries
(`req.URL.User`, `none` when the URL has no userinfo) and headers. A header map is an
association list with at most one entry per key. -/
structure Request where
  Method : GoString
  URL : GoString
  User : Option (GoString × GoString) := none
  Header : List (GoString × GoString)
deriving DecidableEq, Repr

/-- An `http.Response`: the status code and what `io.ReadAll` yields on its body, the bytes
read and the read error if any. -/
structure Response where
  StatusCode : Int
  Body : GoString
  ReadErr : Option error
deriving DecidableEq, Repr

/-- What lies outside the program: what `http.NewRequest` makes of a URL (the error when it
rejects the URL, else the userinfo the URL carries, if any), what the remote side answers to a
request, and what `json.Unmarshal` makes of a body. -/
structure Env where
  parseURL : GoString → Except error (Option (GoString × GoString))
  Do : Request → Except error Response
  unmarshalProjects : GoString → Except error (List RundeckProject)
  unmarshalJobs : GoString → Except error (List RundeckJob)

/-- The effects of a run: the requests `client.Do` sent to the remote side, oldest first, and
the text printed to standard output. -/
structure World where
  requests : List Request := []
  stdout : GoString := []
deriving DecidableEq, Repr

/-- The function `http.NewRequest` with a nil body. -/
def http.NewRequest (env : Env) (method url : GoString) : Except error Request :=
  match env.parseURL url with
  | .error err => .error err
  | .ok user => .ok { Method := method, URL := url, User := user, Header := [] }

/-- The method `Header.Set`: the entry for `key` is replaced. -/
def Request.HeaderSet (req : Request) (key value : GoString) : Request :=
  { req with Header := (req.Header.filter fun e => e.1 ≠ key) ++ [(key, value)] }

/-- The method `Header.Get`, `none` when the header is absent. -/
def Request.HeaderGet (req : Request) (key : GoString) : Option GoString :=
  req.Header.lookup key

/-- The method `Request.SetBasicAuth`. -/
def Request.SetBasicAuth (req : Request) (username password : GoString) : Request :=
  req.HeaderSet (lit "Authorization")
    (lit "Basic " ++ base64.EncodeToString (username ++ lit ":" ++ password))

/-- The request the HTTP client puts on the wire for `req` (the function `send` of
`net/http`): when the URL carries userinfo and `req.Header.Get("Authorization")` is empty, Basic
authentication with that user name and password is added. -/
def http.send (req : Request) : Request :=
  match req.User with
  | some (username, password) =>
    if (req.HeaderGet (lit "Authorization")).getD [] = [] then
      req.SetBasicAuth username password
    else req
  | none => req

/-- The call `client.Do(req)`: the request goes out, as the client sends it, and the remote
side answers. -/
def World.Do (w : World) (env : Env) (req : Request) : Except error Response × World :=
  (env.Do (http.send req), { w with requests := w.requests ++ [http.send req] })

/-- The call `fmt.Printf` with the text already formatted. -/
def World.Printf (w : World) (text : GoString) : World :=
  { w with stdout := w.stdout ++ text }

/-- The requests sent between the worlds `w` and `w1`. -/
def World.sentSince (w1 w : World) : List Request := w1.requests.drop w.requests.length

/-! ## job.go -/

/-- The method `JobGenerator.sanitizeName`: every rune that is not an ASCII letter or digit
becomes an underscore, and an underscore is put in front of a leading digit. -/
def JobGenerator.sanitizeName (_g : JobGenerator) (name : GoString) : GoString :=
  let result := strings.Map (fun r =>
    if ('a'.toNat ≤ r ∧ r ≤ 'z'.toNat) ∨ ('A'.toNat ≤ r ∧ r ≤ 'Z'.toNat)
        ∨ ('0'.toNat ≤ r ∧ r ≤ '9'.toNat) then r
    else '_'.toNat) name
  if 0 < result.length ∧ '0'.toNat ≤ result.getD 0 0 ∧ result.getD 0 0 ≤ '9'.toNat then
    lit "_" ++ result
  else result

/-- The method `JobGenerator.normalizeResourceName`. -/
def JobGenerator.normalizeResourceName (g : JobGenerator) (project group name : GoString) :
    GoString :=
  let parts : List GoString := []
  let parts := if project ≠ [] then parts ++ [g.sanitizeName project] else parts
  let parts := if group ≠ [] then parts ++ [g.sanitizeName group] else parts
  let parts := if name ≠ [] then parts ++ [g.sanitizeName name] else parts
  strings.Join parts (lit "_")

/-- The method `JobGenerator.createJobResources`. -/
def JobGenerator.createJobResources (g : JobGenerator) (jobs : List RundeckJob) :
    List Resource :=
  jobs.foldl (fun resources job =>
    let resourceName := g.normalizeResourceName job.Project job.Group job.Name
    resources ++ [NewSimpleResource job.ID resourceName (lit "rundeck_job") (lit "rundeck") []])
    []

/-- The method `JobGenerator.getProjects`. -/
def JobGenerator.getProjects (_g : JobGenerator) (env : Env)
    (url token username password apiVersion : GoString) (w : World) :
    Except error (List RundeckProject) × World :=
  match http.NewRequest env (lit "GET") (url ++ lit "/api/" ++ apiVersion ++ lit "/projects") with
  | .error err => (.error err, w)
  | .ok req =>
    let req :=
      if token ≠ [] then req.HeaderSet (lit "X-Rundeck-Auth-Token") token
      else if username ≠ [] ∧ password ≠ [] then req.SetBasicAuth username password
      else req
    let req := req.HeaderSet (lit "Accept") (lit "application/json")
    match w.Do env req with
    | (.error err, w) => (.error err, w)
    | (.ok resp, w) =>
      if resp.StatusCode ≠ 200 then
        (.error (lit "API request failed with status " ++ strconv.Itoa resp.StatusCode
          ++ lit ": " ++ resp.Body), w)
      else
        match resp.ReadErr with
        | some err => (.error err, w)
        | none =>
          match env.unmarshalProjects resp.Body with
          | .error err => (.error err, w)
          | .ok projects => (.ok projects, w)

/-- The method `JobGenerator.getJobs`. -/
def JobGenerator.getJobs (_g : JobGenerator) (env : Env)
    (url token username password apiVersion project : GoString) (w : World) :
    Except error (List RundeckJob) × World :=
  match http.NewRequest env (lit "GET")
      (url ++ lit "/api/" ++ apiVersion ++ lit "/project/" ++ project ++ lit "/jobs") with
  | .error err => (.error err, w)
  | .ok req =>
    let req :=
      if token ≠ [] then req.HeaderSet (lit "X-Rundeck-Auth-Token") token
      else if username ≠ [] ∧ password ≠ [] then req.SetBasicAuth username password
      else req
    let req := req.HeaderSet (lit "Accept") (lit "application/json")
    match w.Do env req with
    | (.error err, w) => (.error err, w)
    | (.ok resp, w) =>
      if resp.StatusCode ≠ 200 then
        (.error (lit "API request failed with status " ++ strconv.Itoa resp.StatusCode
          ++ lit ": " ++ resp.Body), w)
      else
        match resp.ReadErr with
        | some err => (.error err, w)
        | none =>
          match env.unmarshalJobs resp.Body with
          | .error err => (.error err, w)
          | .ok jobs => (.ok jobs, w)

/-- The loop of `JobGenerator.InitResources` over the projects: a project whose jobs cannot be
fetched is skipped, with a warning when the generator is verbose. -/
def JobGenerator.InitResources.loop (env : Env)
    (url token username password apiVersion : GoString) :
    List RundeckProject → JobGenerator → World → JobGenerator × World
  | [], g, w => (g, w)
  | project :: rest, g, w =>
    match g.getJobs env url token username password apiVersion project.Name w with
    | (.error err, w) =>
      let w :=
        if g.Verbose then
          w.Printf (lit "Warning: failed to get jobs for project " ++ project.Name ++ lit ": "
            ++ err ++ lit "\n")
        else w
      loop env url token username password apiVersion rest g w
    | (.ok jobs, w) =>
      loop env url token username password apiVersion rest
        { g with Resources := g.Resources ++ g.createJobResources jobs } w

/-- The method `JobGenerator.InitResources`: the returned error (`none` for nil), the
generator and the world after the call; `none` when a type assertion on `g.Args` panics. -/
def JobGenerator.InitResources (g : JobGenerator) (env : Env) (w : World) :
    Option (Option error × JobGenerator × World) := do
  let url ← Value.assertString (g.Args.lookup (lit "url"))
  let token ← Value.assertString (g.Args.lookup (lit "token"))
  let username ← Value.assertString (g.Args.lookup (lit "username"))
  let password ← Value.assertString (g.Args.lookup (lit "password"))
  let apiVersion ← Value.assertString (g.Args.lookup (lit "api_version"))
  let apiVersion := if apiVersion = [] then lit "38" else apiVersion
  match g.getProjects env url token username password apiVersion w with
  | (.error err, w) => some (some (lit "failed to get projects: " ++ err), g, w)
  | (.ok projects, w) =>
    let (g, w) :=
      JobGenerator.InitResources.loop env url token username password apiVersion projects g w
    some (none, g, w)

/-! ## project.go -/

/-- The method `ProjectGenerator.normalizeResourceName`. -/
def ProjectGenerator.normalizeResourceName (_g : ProjectGenerator) (name : GoString) :
    GoString :=
  let result := strings.Map (fun r =>
    if ('a'.toNat ≤ r ∧ r ≤ 'z'.toNat) ∨ ('A'.toNat ≤ r ∧ r ≤ 'Z'.toNat)
        ∨ ('0'.toNat ≤ r ∧ r ≤ '9'.toNat) then r
    else '_'.toNat) name
  if 0 < result.length ∧ '0'.toNat ≤ result.getD 0 0 ∧ result.getD 0 0 ≤ '9'.toNat then
    lit "_" ++ result
  else result

/-- The method `ProjectGenerator.createProjectResources`. -/
def ProjectGenerator.createProjectResources (g : ProjectGenerator)
    (projects : List RundeckProject) : List Resource :=
  projects.foldl (fun resources project =>
    let resourceName := g.normalizeResourceName project.Name
    resources ++
      [NewSimpleResource project.Name resourceName (lit "rundeck_project") (lit "rundeck") []])
    []

/-- The method `ProjectGenerator.getProjects`. -/
def ProjectGenerator.getProjects (_g : ProjectGenerator) (env : Env)
    (url token username password apiVersion : GoString) (w : World) :
    Except error (List RundeckProject) × World :=
  match http.NewRequest env (lit "GET") (url ++ lit "/api/" ++ apiVersion ++ lit "/projects") with
  | .error err => (.error err, w)
  | .ok req =>
    let req :=
      if token ≠ [] then req.HeaderSet (lit "X-Rundeck-Auth-Token") token
      else if username ≠ [] ∧ password ≠ [] then req.SetBasicAuth username password
      else req
    let req := req.HeaderSet (lit "Accept") (lit "application/json")
    match w.Do env req with
    | (.error err, w) => (.error err, w)
    | (.ok resp, w) =>
      if resp.StatusCode ≠ 200 then
        (.error (lit "API request failed with status " ++ strconv.Itoa resp.StatusCode
          ++ lit ": " ++ resp.Body), w)
      else
        match resp.ReadErr with
        | some err => (.error err, w)
        | none =>
          match env.unmarshalProjects resp.Body with
          | .error err => (.error err, w)
          | .ok projects => (.ok projects, w)

/-- The method `ProjectGenerator.InitResources`: the returned error (`none` for nil), the
generator and the world after the call; `none` when a type assertion on `g.Args` panics. -/
def ProjectGenerator.InitResources (g : ProjectGenerator) (env : Env) (w : World) :
    Option (Option error × ProjectGenerator × World) := do
  let url ← Value.assertString (g.Args.lookup (lit "url"))
  let token ← Value.assertString (g.Args.lookup (lit "token"))
  let username ← Value.assertString (g.Args.lookup (lit "username"))
  let password ← Value.assertString (g.Args.lookup (lit "password"))
  let apiVersion ← Value.assertString (g.Args.lookup (lit "api_version"))
  let apiVersion := if apiVersion = [] then lit "38" else apiVersion
  match g.getProjects env url token username password apiVersion w with
  | (.error err, w) => some (some (lit "failed to get projects: " ++ err), g, w)
  | (.ok projects, w) =>
    some (none, { g with Resources := g.Resources ++ g.createProjectResources projects }, w)

/-! ## rundeck_provider.go -/

/-- The interface `terraformutils.ServiceGenerator`, as the two types of this package that
implement it. -/
inductive ServiceGenerator where
  | jobs (g : JobGenerator)
  | projects (g : ProjectGenerator)
deriving DecidableEq, Repr

/-- A generator with its embedded `Service` changed by `f`. -/
def ServiceGenerator.update (f : Service → Service) : ServiceGenerator → ServiceGenerator
  | .jobs g => .jobs { toService := f g.toService }
  | .projects g => .projects { toService := f g.toService }

/-- Modelled from the spec: the setter `SetName` of `terraformutils.Service`, which is not
among the source files; it stores its argument in the field it is named after. -/
def ServiceGenerator.SetName (service : ServiceGenerator) (name : GoString) :
    ServiceGenerator :=
  service.update fun s => { s with Name := name }

/-- Modelled from the spec: the setter `SetVerbose` of `terraformutils.Service`, which is not
among the source files; it stores its argument in the field it is named after. -/
def ServiceGenerator.SetVerbose (service : ServiceGenerator) (verbose : Bool) :
    ServiceGenerator :=
  service.update fun s => { s with Verbose := verbose }

/-- Modelled from the spec: the setter `SetProviderName` of `terraformutils.Service`, which is
not among the source files; it stores its argument in the field it is named after. -/
def ServiceGenerator.SetProviderName (service : ServiceGenerator) (name : GoString) :
    ServiceGenerator :=
  service.update fun s => { s with ProviderName := name }

/-- Modelled from the spec: the setter `SetArgs` of `terraformutils.Service`, which is not
among the source files; it stores the key-value bag in the field it is named after. -/
def ServiceGenerator.SetArgs (service : ServiceGenerator) (args : List (GoString × Value)) :
    ServiceGenerator :=
  service.update fun s => { s with Args := args }

/-- The type `RundeckProvider`; `Service` is the field of the embedded
`terraformutils.Provider`, `none` while no service has been selected. -/
structure RundeckProvider where
  Service : Option ServiceGenerator := none
  url : GoString := []
  token : GoString := []
  username : GoString := []
  password : GoString := []
  apiVersion : GoString := []
  insecureSSL : Bool := false
deriving DecidableEq, Repr

/-- The method `RundeckProvider.GetName`. -/
def RundeckProvider.GetName (_p : RundeckProvider) : GoString := lit "rundeck"

/-- The method `RundeckProvider.GetSupportedService`. -/
def RundeckProvider.GetSupportedService (_p : RundeckProvider) :
    List (GoString × ServiceGenerator) :=
  [(lit "jobs", .jobs {}), (lit "projects", .projects {})]

/-- The method `RundeckProvider.InitService`: the returned error (`none` for nil) and the
provider after the call. -/
def RundeckProvider.InitService (p : RundeckProvider) (serviceName : GoString)
    (verbose : Bool) : Option error × RundeckProvider :=
  match p.GetSupportedService.lookup serviceName with
  | none => (some (p.GetName ++ lit ": " ++ serviceName ++ lit " not supported service"), p)
  | some service =>
    let service := service.SetName serviceName
    let service := service.SetVerbose verbose
    let service := service.SetProviderName p.GetName
    let service := service.SetArgs [
      (lit "url", Value.string p.url),
      (lit "token", Value.string p.token),
      (lit "username", Value.string p.username),
      (lit "password", Value.string p.password),
      (lit "api_version", Value.string p.apiVersion),
      (lit "insecure", Value.bool p.insecureSSL)]
    (none, { p with Service := some service })

/-! ## The vocabulary of the specification -/

/-- A byte of the class `[A-Za-z0-9_]`. -/
def identByte (b : Nat) : Prop :=
  ('A'.toNat ≤ b ∧ b ≤ 'Z'.toNat) ∨ ('a'.toNat ≤ b ∧ b ≤ 'z'.toNat)
    ∨ ('0'.toNat ≤ b ∧ b ≤ '9'.toNat) ∨ b = '_'.toNat

instance : DecidablePred identByte := fun b => by unfold identByte; infer_instance

/-- An ASCII digit. -/
def digitByte (b : Nat) : Prop := '0'.toNat ≤ b ∧ b ≤ '9'.toNat

instance : DecidablePred digitByte := fun b => by unfold digitByte; infer_instance

/-- The string does not begin with an ASCII digit. -/
def noLeadingDigit (s : GoString) : Prop := ∀ b, s.head? = some b → ¬ digitByte b

/-- The character mapping both sanitizers pass to `strings.Map`. -/
def sanitizeRune (r : Int) : Int :=
  if ('a'.toNat ≤ r ∧ r ≤ 'z'.toNat) ∨ ('A'.toNat ≤ r ∧ r ≤ 'Z'.toNat)
      ∨ ('0'.toNat ≤ r ∧ r ≤ '9'.toNat) then r
  else '_'.toNat

/-- The body shared by `JobGenerator.sanitizeName` and
`ProjectGenerator.normalizeResourceName`. -/
def sanitizeCore (name : GoString) : GoString :=
  let result := strings.Map sanitizeRune name
  if 0 < result.length ∧ '0'.toNat ≤ result.getD 0 0 ∧ result.getD 0 0 ≤ '9'.toNat then
    lit "_" ++ result
  else result

/-- The arguments `InitService` installs, as `InitResources` reads them: the five string
entries of `g.Args`. -/
def Service.configured (s : Service) (url token username password apiVersion : GoString) :
    Prop :=
  s.Args.lookup (lit "url") = some (Value.string url)
    ∧ s.Args.lookup (lit "token") = some (Value.string token)
    ∧ s.Args.lookup (lit "username") = some (Value.string username)
    ∧ s.Args.lookup (lit "password") = some (Value.string password)
    ∧ s.Args.lookup (lit "api_version") = some (Value.string apiVersion)

instance (s : Service) (url token username password apiVersion : GoString) :
    Decidable (s.configured url token username password apiVersion) := by
  unfold Service.configured; infer_instance

/-- The API version `InitResources` uses: `"38"` when none is configured. -/
def effectiveVersion (apiVersion : GoString) : GoString :=
  if apiVersion = [] then lit "38" else apiVersion

/-- The transport as a function from the project name to the result of fetching its jobs. -/
def jobFetch (env : Env) (url token username password apiVersion : GoString)
    (project : GoString) : Except error (List RundeckJob) :=
  (JobGenerator.getJobs {} env url token username password apiVersion project {}).1

/-- The resources of the jobs of one project: those of the fetched jobs, none when the fetch
failed. -/
def resourcesOfFetch (g : JobGenerator) : Except error (List RundeckJob) → List Resource
  | .ok jobs => g.createJobResources jobs
  | .error _ => []

/-- The resources of the jobs of the given projects, in the order of the projects and, within
a project, in the order the jobs were returned; a project whose fetch failed has none. -/
def discovered (g : JobGenerator) (env : Env) (url token username password apiVersion : GoString)
    (projects : List RundeckProject) : List Resource :=
  projects.flatMap fun p =>
    resourcesOfFetch g (jobFetch env url token username password apiVersion p.Name)

/-- Whether a fetch succeeded. -/
def fetchOk {α : Type} : Except error α → Bool
  | .ok _ => true
  | .error _ => false

/-- What a caller observes of `JobGenerator.InitResources`: the returned error and the
resource list. -/
def JobGenerator.observed (r : Option (Option error × JobGenerator × World)) :
    Option (Option error × List Resource) :=
  r.map fun x => (x.1, x.2.1.Resources)

/-- The request `getProjects` and `getJobs` build for a URL and hand to `client.Do`: a GET with
the authentication chosen from the credentials and the `Accept` header; `user` is the userinfo
of the URL. -/
def builtRequest (user : Option (GoString × GoString)) (u token username password : GoString) :
    Request :=
  let req : Request := { Method := lit "GET", URL := u, User := user, Header := [] }
  let req :=
    if token ≠ [] then req.HeaderSet (lit "X-Rundeck-Auth-Token") token
    else if username ≠ [] ∧ password ≠ [] then req.SetBasicAuth username password
    else req
  req.HeaderSet (lit "Accept") (lit "application/json")

/-- The authentication a request carries for given credentials: the token header alone when
there is a token, Basic authentication alone when there is none and both user name and
password are there, neither otherwise. -/
def authSelected (token username password : GoString) (req : Request) : Prop :=
  (token ≠ [] →
      req.HeaderGet (lit "X-Rundeck-Auth-Token") = some token
        ∧ req.HeaderGet (lit "Authorization") = none)
    ∧ (token = [] → username ≠ [] ∧ password ≠ [] →
      req.HeaderGet (lit "X-Rundeck-Auth-Token") = none
        ∧ req.HeaderGet (lit "Authorization")
          = some (lit "Basic " ++ base64.EncodeToString (username ++ lit ":" ++ password)))
    ∧ (token = [] → ¬ (username ≠ [] ∧ password ≠ []) →
      req.HeaderGet (lit "X-Rundeck-Auth-Token") = none
        ∧ req.HeaderGet (lit "Authorization") = none)

/-- The request carries at most one of the two authentication headers. -/
def atMostOneAuth (req : Request) : Prop :=
  req.HeaderGet (lit "X-Rundeck-Auth-Token") = none ∨ req.HeaderGet (lit "Authorization") = none

instance (token username password : GoString) (req : Request) :
    Decidable (authSelected token username password req) := by
  unfold authSelected; infer_instance

instance (req : Request) : Decidable (atMostOneAuth req) := by
  unfold atMostOneAuth; infer_instance

/-- The requests fetching the jobs of a project sends. -/
def jobRequests (env : Env) (url token username password apiVersion : GoString)
    (project : GoString) : List Request :=
  (JobGenerator.getJobs {} env url token username password apiVersion project {}).2.requests

/-- The result of fetching the projects. -/
def projectFetch (env : Env) (url token username password apiVersion : GoString) :
    Except error (List RundeckProject) :=
  (JobGenerator.getProjects {} env url token username password apiVersion {}).1

/-- The requests fetching the projects sends. -/
def projectRequests (env : Env) (url token username password apiVersion : GoString) :
    List Request :=
  (JobGenerator.getProjects {} env url token username password apiVersion {}).2.requests

deriving instance DecidableEq for Except

/-! ## A concrete remote side -/

/-- A provider configured with a URL, a token, a user name and a password, and no API
version. -/
def demoProvider : RundeckProvider :=
  { url := lit "http://rd", token := lit "t0k", username := lit "admin", password := lit "pw" }

/-- The generator `InitService` installs on `demoProvider` for the service `jobs`. -/
def demoJobGenerator : JobGenerator :=
  match (demoProvider.InitService (lit "jobs") true).2.Service with
  | some (.jobs g) => g
  | _ => {}

/-- The generator `InitService` installs on `demoProvider` for the service `projects`. -/
def demoProjectGenerator : ProjectGenerator :=
  match (demoProvider.InitService (lit "projects") false).2.Service with
  | some (.projects g) => g
  | _ => {}

/-- The job `a` of project `P1`. -/
def demoJ1a : RundeckJob := { ID := lit "1a", Name := lit "a", Project := lit "P1" }

/-- The job `a` of project `P3`. -/
def demoJ3a : RundeckJob :=
  { ID := lit "3a", Name := lit "a", Project := lit "P3", Group := lit "ops" }

/-- The job `b` of project `P3`. -/
def demoJ3b : RundeckJob := { ID := lit "3b", Name := lit "7 b", Project := lit "P3" }

/-- The jobs of the projects `P1`, `P2` and `P3`: one, none and two. -/
def demoJobsOf (project : GoString) : List RundeckJob :=
  if project = lit "P1" then [demoJ1a]
  else if project = lit "P3" then [demoJ3a, demoJ3b]
  else []

/-- A remote side whose project list is `projects` and which serves the job lists of `P1`,
`P2` and `P3` under `/project/<name>/jobs`; the body of such an answer is the name of the
project. The job list of a project named in `failing` is answered with status 500, any other
path with status 404. -/
def demoEnv (projects : List GoString) (failing : List GoString) : Env where
  parseURL := fun _ => .ok none
  Do := fun req =>
    if req.URL = lit "http://rd/api/38/projects" then
      .ok { StatusCode := 200, Body := lit "projects", ReadErr := none }
    else
      match [lit "P1", lit "P2", lit "P3"].find? fun name =>
          req.URL = lit "http://rd/api/38/project/" ++ name ++ lit "/jobs" with
      | some name =>
        if name ∈ failing then
          .ok { StatusCode := 500, Body := lit "boom", ReadErr := none }
        else .ok { StatusCode := 200, Body := name, ReadErr := none }
      | none => .ok { StatusCode := 404, Body := lit "not found", ReadErr := none }
  unmarshalProjects := fun _ => .ok (projects.map fun name => { Name := name })
  unmarshalJobs := fun body => .ok (demoJobsOf body)

/-- The project list `P1`, `P2`, `P3`. -/
def demoProjects : List RundeckProject :=
  [{ Name := lit "P1" }, { Name := lit "P2" }, { Name := lit "P3" }]

/-- The request fetching the jobs of `P1` with the credentials of `demoProvider`. -/
def demoJobsRequest : Request :=
  { Method := lit "GET", URL := lit "http://rd/api/38/project/P1/jobs", User := none,
    Header := [(lit "X-Rundeck-Auth-Token", lit "t0k"), (lit "Accept", lit "application/json")] }

/-- The request fetching the projects with the credentials of `demoProvider`. -/
def demoProjectsRequest : Request :=
  { Method := lit "GET", URL := lit "http://rd/api/38/projects", User := none,
    Header := [(lit "X-Rundeck-Auth-Token", lit "t0k"), (lit "Accept", lit "application/json")] }

/-- A remote side reached under `http://u:p@rd`, a URL that carries the user name `u` and the
password `p`; every request is answered with an empty list. -/
def userinfoEnv : Env where
  parseURL := fun url =>
    if (lit "http://u:p@rd/").isPrefixOf url then .ok (some (lit "u", lit "p")) else .ok none
  Do := fun _ => .ok { StatusCode := 200, Body := lit "[]", ReadErr := none }
  unmarshalProjects := fun _ => .ok []
  unmarshalJobs := fun _ => .ok []

/-- The request the client sends for the jobs of `P1` under `http://u:p@rd` when a token is
configured: it carries the token header and Basic authentication for `u:p`. -/
def userinfoJobsRequest : Request :=
  { Method := lit "GET", URL := lit "http://u:p@rd/api/38/project/P1/jobs",
    User := some (lit "u", lit "p"),
    Header := [(lit "X-Rundeck-Auth-Token", lit "t0k"), (lit "Accept", lit "application/json"),
      (lit "Authorization", lit "Basic dTpw")] }

/-- The request the client sends for the projects of `http://u:p@rd` when a token is
configured: it carries the token header and Basic authentication for `u:p`. -/
def userinfoProjectsRequest : Request :=
  { Method := lit "GET", URL := lit "http://u:p@rd/api/38/projects",
    User := some (lit "u", lit "p"),
    Header := [(lit "X-Rundeck-Auth-Token", lit "t0k"), (lit "Accept", lit "application/json"),
      (lit "Authorization", lit "Basic dTpw")] }

/-- A remote side that answers every request with status 500. -/
def downEnv : Env where
  parseURL := fun _ => .ok none
  Do := fun _ => .ok { StatusCode := 500, Body := lit "down", ReadErr := none }
  unmarshalProjects := fun _ => .ok []
  unmarshalJobs := fun _ => .ok []

/-! ## Lemmas on the library functions -/

theorem decodeRune_width_pos (b : Nat) (rest : GoString) :
    1 ≤ (utf8.DecodeRuneInString (b :: rest)).2 := by
  simp only [utf8.DecodeRuneInString]
  split_ifs <;> first | exact le_refl _ | (split <;> first | exact le_refl _ | (split_ifs <;> simp))

theorem decodeRune_ascii (b : Nat) (rest : GoString) (h : b < 0x80) :
    utf8.DecodeRuneInString (b :: rest) = ((b : Int), 1) := by
  simp [utf8.DecodeRuneInString, h]

theorem rangeRunesAux_fuel (f1 : Nat) : ∀ (f2 : Nat) (s : GoString),
    s.length ≤ f1 → s.length ≤ f2 → rangeRunesAux f1 s = rangeRunesAux f2 s := by
  induction f1 with
  | zero =>
    intro f2 s h1 _
    have hs : s = [] := List.length_eq_zero.mp (Nat.le_zero.mp h1)
    subst hs
    cases f2 <;> rfl
  | succ k ih =>
    intro f2 s h1 h2
    cases s with
    | nil => cases f2 <;> rfl
    | cons b rest =>
      cases f2 with
      | zero => simp at h2
      | succ m =>
        have hw := decodeRune_width_pos b rest
        simp only [rangeRunesAux]
        congr 1
        apply ih <;> simp only [List.length_drop, List.length_cons] at * <;> omega

/-- The loop over the runes of a non-empty string decodes one rune and goes on with the rest:
the fuel `rangeRunes` starts with never runs out. -/
theorem rangeRunes_cons (b : Nat) (rest : GoString) :
    rangeRunes (b :: rest) = (utf8.DecodeRuneInString (b :: rest)).1 ::
      rangeRunes ((b :: rest).drop (utf8.DecodeRuneInString (b :: rest)).2) := by
  have hw := decodeRune_width_pos b rest
  unfold rangeRunes
  simp only [List.length_cons, rangeRunesAux]
  congr 1
  apply rangeRunesAux_fuel <;> simp only [List.length_drop, List.length_cons] <;> omega

theorem rangeRunes_nil : rangeRunes [] = [] := rfl

theorem rangeRunes_ascii (s : GoString) (h : ∀ b ∈ s, b < 0x80) :
    rangeRunes s = s.map (Nat.cast : Nat → Int) := by
  induction s with
  | nil => rfl
  | cons b rest ih =>
    have hb : b < 0x80 := h b (List.mem_cons_self _ _)
    rw [rangeRunes_cons, decodeRune_ascii b rest hb]
    simp only [List.drop_succ_cons, List.drop_zero, List.map_cons]
    rw [ih fun x hx => h x (List.mem_cons_of_mem _ hx)]

theorem sanitizeRune_spec (c : Int) :
    ∃ b : Nat, identByte b ∧ sanitizeRune c = (b : Int) := by
  unfold sanitizeRune
  split_ifs with h
  · have hc : 0 ≤ c := by
      simp only [Char.reduceToNat] at h
      omega
    refine ⟨c.toNat, ?_, (Int.toNat_of_nonneg hc).symm⟩
    unfold identByte
    simp only [Char.reduceToNat] at h ⊢
    omega
  · exact ⟨'_'.toNat, Or.inr (Or.inr (Or.inr rfl)), rfl⟩

theorem identByte_lt (b : Nat) (h : identByte b) : b < 0x80 := by
  unfold identByte at h
  simp only [Char.reduceToNat] at h
  omega

theorem sanitizeRune_identByte (b : Nat) (h : identByte b) : sanitizeRune (b : Int) = b := by
  unfold identByte at h
  unfold sanitizeRune
  simp only [Char.reduceToNat] at h ⊢
  split_ifs with h1
  · rfl
  · omega

/-! ## Lemmas on sanitization -/

theorem sanitizeName_eq_core (g : JobGenerator) (s : GoString) :
    g.sanitizeName s = sanitizeCore s := rfl

theorem projectName_eq_core (g : ProjectGenerator) (s : GoString) :
    g.normalizeResourceName s = sanitizeCore s := rfl

theorem appendRune_identByte (b : Nat) (h : identByte b) : utf8.AppendRune (b : Int) = [b] := by
  have hb := identByte_lt b h
  unfold utf8.AppendRune
  rw [if_pos (by omega)]
  simp

theorem stringsMap_sanitizeRune (s : GoString) :
    strings.Map sanitizeRune s = (rangeRunes s).map fun c => (sanitizeRune c).toNat := by
  unfold strings.Map
  induction rangeRunes s with
  | nil => rfl
  | cons c cs ih =>
    obtain ⟨b, hb, e⟩ := sanitizeRune_spec c
    simp only [List.flatMap_cons, List.map_cons, ih, e, Int.toNat_ofNat, Int.ofNat_zero_le,
      if_true, appendRune_identByte b hb, List.singleton_append]

theorem stringsMap_sanitizeRune_identByte (s : GoString) :
    ∀ b ∈ strings.Map sanitizeRune s, identByte b := by
  intro b hb
  rw [stringsMap_sanitizeRune, List.mem_map] at hb
  obtain ⟨c, _, rfl⟩ := hb
  obtain ⟨b, hb, e⟩ := sanitizeRune_spec c
  rw [e]
  exact hb

theorem stringsMap_sanitizeRune_fixed (t : GoString) (h : ∀ b ∈ t, identByte b) :
    strings.Map sanitizeRune t = t := by
  rw [stringsMap_sanitizeRune, rangeRunes_ascii t fun b hb => identByte_lt b (h b hb),
    List.map_map]
  conv_rhs => rw [← List.map_id t]
  apply List.map_congr_left
  intro b hb
  simp [sanitizeRune_identByte b (h b hb)]

theorem stringsMap_sanitizeRune_ne_nil (b : Nat) (rest : GoString) :
    strings.Map sanitizeRune (b :: rest) ≠ [] := by
  rw [stringsMap_sanitizeRune, rangeRunes_cons]
  simp

theorem lit_underscore : lit "_" = ['_'.toNat] := by decide

theorem identByte_underscore : identByte '_'.toNat := Or.inr (Or.inr (Or.inr rfl))

theorem not_digitByte_underscore : ¬ digitByte '_'.toNat := by decide

theorem sanitizeCore_identByte (s : GoString) : ∀ b ∈ sanitizeCore s, identByte b := by
  intro b hb
  unfold sanitizeCore at hb
  simp only at hb
  split_ifs at hb
  · rw [lit_underscore, List.singleton_append, List.mem_cons] at hb
    rcases hb with rfl | hb
    · exact identByte_underscore
    · exact stringsMap_sanitizeRune_identByte s b hb
  · exact stringsMap_sanitizeRune_identByte s b hb

theorem sanitizeCore_noLeadingDigit (s : GoString) : noLeadingDigit (sanitizeCore s) := by
  intro b hb
  unfold sanitizeCore at hb
  simp only at hb
  split_ifs at hb with h
  · rw [lit_underscore, List.singleton_append, List.head?_cons, Option.some.injEq] at hb
    subst hb
    exact not_digitByte_underscore
  · intro hd
    apply h
    cases hr : strings.Map sanitizeRune s with
    | nil => rw [hr] at hb; simp at hb
    | cons x xs =>
      rw [hr, List.head?_cons, Option.some.injEq] at hb
      subst hb
      exact ⟨by simp, hd.1, hd.2⟩

theorem sanitizeCore_ne_nil (s : GoString) (h : s ≠ []) : sanitizeCore s ≠ [] := by
  cases s with
  | nil => exact absurd rfl h
  | cons b rest =>
    have hm := stringsMap_sanitizeRune_ne_nil b rest
    unfold sanitizeCore
    simp only
    split_ifs
    · rw [lit_underscore]; simp
    · exact hm

/-- A string of the class `[A-Za-z0-9_]*` without a leading digit is left as it is. -/
theorem sanitizeCore_fixed (t : GoString) (h : ∀ b ∈ t, identByte b) (hd : noLeadingDigit t) :
    sanitizeCore t = t := by
  unfold sanitizeCore
  simp only [stringsMap_sanitizeRune_fixed t h]
  rw [if_neg]
  rintro ⟨hlen, h0, h9⟩
  cases t with
  | nil => simp at hlen
  | cons x xs => exact hd x rfl ⟨h0, h9⟩

theorem sanitizeCore_idem (s : GoString) : sanitizeCore (sanitizeCore s) = sanitizeCore s :=
  sanitizeCore_fixed _ (sanitizeCore_identByte s) (sanitizeCore_noLeadingDigit s)

/-- The sanitizers on concrete names: a two-byte rune and an invalid byte each become one
underscore, and a leading digit gets an underscore in front. -/
theorem sanitizeName_examples (g : JobGenerator) (pg : ProjectGenerator) :
    g.sanitizeName (lit "Nightly Build") = lit "Nightly_Build"
      ∧ g.sanitizeName (lit "ci/cd") = lit "ci_cd"
      ∧ g.sanitizeName (lit "9é-aZ") = lit "_9__aZ"
      ∧ g.sanitizeName [0x61, 0xFF, 0xC3, 0x62] = lit "a__b"
      ∧ g.sanitizeName [] = []
      ∧ pg.normalizeResourceName (lit "42 prod") = lit "_42_prod" := by
  simp only [sanitizeName_eq_core, projectName_eq_core]
  decide

/-! ## Lemmas on names and resource lists -/

theorem stringsJoin_eq_intercalate (parts : List GoString) (sep : GoString) :
    strings.Join parts sep = List.intercalate sep parts := by
  induction parts with
  | nil => rfl
  | cons a rest ih =>
    cases rest with
    | nil => simp [strings.Join, List.intercalate]
    | cons b rest =>
      rw [strings.Join, ih]
      simp [List.intercalate, List.intersperse]

theorem foldl_append_singleton {α β : Type} (f : α → β) (l : List α) (init : List β) :
    l.foldl (fun acc x => acc ++ [f x]) init = init ++ l.map f := by
  induction l generalizing init with
  | nil => simp
  | cons x xs ih => simp [ih]

theorem jobName_eq_join (g : JobGenerator)
    (project group name : GoString) :
    g.normalizeResourceName project group name
      = strings.Join (([project, group, name].filter fun s => s ≠ []).map sanitizeCore)
          (lit "_") := by
  unfold JobGenerator.normalizeResourceName
  by_cases hp : project = [] <;> by_cases hg : group = [] <;> by_cases hn : name = [] <;>
    simp [hp, hg, hn, List.filter, sanitizeName_eq_core]

theorem createJobResources_eq_map (g : JobGenerator) (jobs : List RundeckJob) :
    g.createJobResources jobs = jobs.map fun job =>
      NewSimpleResource job.ID (g.normalizeResourceName job.Project job.Group job.Name)
        (lit "rundeck_job") (lit "rundeck") [] := by
  unfold JobGenerator.createJobResources
  rw [foldl_append_singleton]
  rfl

theorem createProjectResources_eq_map (g : ProjectGenerator)
    (projects : List RundeckProject) :
    g.createProjectResources projects = projects.map fun project =>
      NewSimpleResource project.Name (g.normalizeResourceName project.Name)
        (lit "rundeck_project") (lit "rundeck") [] := by
  unfold ProjectGenerator.createProjectResources
  rw [foldl_append_singleton]
  rfl

theorem noLeadingDigit_append (a b : GoString) (ha : a ≠ []) (hd : noLeadingDigit a) :
    noLeadingDigit (a ++ b) := by
  cases a with
  | nil => exact absurd rfl ha
  | cons x xs => exact fun y hy => hd y hy

theorem noLeadingDigit_nil : noLeadingDigit [] := by
  intro b h
  simp at h

/-- Joining non-empty sanitized parts with an underscore gives a non-empty string of the class
`[A-Za-z0-9_]*` without a leading digit. -/
theorem stringsJoin_wellformed (parts : List GoString)
    (h : ∀ p ∈ parts, (∀ b ∈ p, identByte b) ∧ noLeadingDigit p ∧ p ≠ []) :
    (∀ b ∈ strings.Join parts ['_'.toNat], identByte b)
      ∧ noLeadingDigit (strings.Join parts ['_'.toNat])
      ∧ (strings.Join parts ['_'.toNat] = [] ↔ parts = []) := by
  induction parts with
  | nil => exact ⟨fun b hb => by simp [strings.Join] at hb, noLeadingDigit_nil, by simp [strings.Join]⟩
  | cons a rest ih =>
    obtain ⟨hai, had, hane⟩ := h a (List.mem_cons_self _ _)
    cases rest with
    | nil => exact ⟨hai, had, by simp [strings.Join, hane]⟩
    | cons c rest =>
      obtain ⟨ihi, _, _⟩ := ih fun p hp => h p (List.mem_cons_of_mem _ hp)
      refine ⟨?_, ?_, ?_⟩
      · intro b hb
        simp only [strings.Join, List.mem_append, List.mem_singleton] at hb
        rcases hb with (hb | hb) | hb
        · exact hai b hb
        · subst hb; exact identByte_underscore
        · exact ihi b hb
      · simp only [strings.Join, List.append_assoc]
        exact noLeadingDigit_append _ _ hane had
      · simp [strings.Join, hane]

/-! ## The claims on naming -/

/-- C1, sanitization totality: for every input string, the output of
`JobGenerator.sanitizeName`, and likewise of `ProjectGenerator.normalizeResourceName`, contains
only bytes of `[A-Za-z0-9_]` and does not begin with an ASCII digit. -/
theorem sanitization_totality (g : JobGenerator) (pg : ProjectGenerator) (s : GoString) :
    ((∀ b ∈ g.sanitizeName s, identByte b) ∧ noLeadingDigit (g.sanitizeName s))
      ∧ ((∀ b ∈ pg.normalizeResourceName s, identByte b)
        ∧ noLeadingDigit (pg.normalizeResourceName s)) :=
  ⟨⟨sanitizeCore_identByte s, sanitizeCore_noLeadingDigit s⟩,
    ⟨sanitizeCore_identByte s, sanitizeCore_noLeadingDigit s⟩⟩

/-- C2, sanitization idempotence: sanitizing a sanitized string changes nothing, for
`JobGenerator.sanitizeName` and for `ProjectGenerator.normalizeResourceName`. -/
theorem sanitization_idempotence (g : JobGenerator) (pg : ProjectGenerator) (s : GoString) :
    g.sanitizeName (g.sanitizeName s) = g.sanitizeName s
      ∧ pg.normalizeResourceName (pg.normalizeResourceName s) = pg.normalizeResourceName s :=
  ⟨sanitizeCore_idem s, sanitizeCore_idem s⟩

/-- C3: `createJobResources` returns one resource per job, in input order, whose remote id is
the id of the job and whose local name joins with `_` the sanitized project, group and name,
skipping the empty ones; the job `j-1` named `Nightly Build` of project `Infra Team` and group
`ci/cd` gets the local name `Infra_Team_ci_cd_Nightly_Build`. -/
theorem createJobResources_spec (g : JobGenerator) (jobs : List RundeckJob) :
    g.createJobResources jobs = jobs.map (fun job =>
        { remoteID := job.ID,
          localName := List.intercalate (lit "_")
            (([job.Project, job.Group, job.Name].filter fun s => s ≠ []).map g.sanitizeName),
          kind := lit "rundeck_job",
          providerTag := lit "rundeck",
          dependencyRefs := [] })
      ∧ g.createJobResources
          [{ ID := lit "j-1", Name := lit "Nightly Build", Project := lit "Infra Team",
             Group := lit "ci/cd" }]
        = [{ remoteID := lit "j-1", localName := lit "Infra_Team_ci_cd_Nightly_Build",
             kind := lit "rundeck_job", providerTag := lit "rundeck", dependencyRefs := [] }] := by
  constructor
  · rw [createJobResources_eq_map]
    apply List.map_congr_left
    intro job _
    rw [jobName_eq_join, stringsJoin_eq_intercalate]
    rfl
  · rw [createJobResources_eq_map]
    simp only [List.map_cons, List.map_nil, NewSimpleResource,
      jobName_eq_join]
    decide

/-- C9: `createProjectResources` returns one resource per project, in input order, whose
remote id is the name of the project and whose local name is the sanitization of that name,
with the provider tag `rundeck` and no dependencies. -/
theorem createProjectResources_spec (g : ProjectGenerator) (projects : List RundeckProject) :
    g.createProjectResources projects = projects.map fun project =>
      { remoteID := project.Name,
        localName := g.normalizeResourceName project.Name,
        kind := lit "rundeck_project",
        providerTag := lit "rundeck",
        dependencyRefs := [] } :=
  createProjectResources_eq_map g projects

/-- C10: the local name of a job contains only bytes of `[A-Za-z0-9_]`, does not begin with an
ASCII digit, and is empty exactly when project, group and name are all empty. -/
theorem job_local_name_wellformed (g : JobGenerator) (project group name : GoString) :
    (∀ b ∈ g.normalizeResourceName project group name, identByte b)
      ∧ noLeadingDigit (g.normalizeResourceName project group name)
      ∧ (g.normalizeResourceName project group name = []
          ↔ project = [] ∧ group = [] ∧ name = []) := by
  rw [jobName_eq_join, lit_underscore]
  have h := stringsJoin_wellformed
    (([project, group, name].filter fun s => s ≠ []).map sanitizeCore) (by
      intro p hp
      rw [List.mem_map] at hp
      obtain ⟨s, hs, rfl⟩ := hp
      have hne : s ≠ [] := by simpa using (List.mem_filter.mp hs).2
      exact ⟨sanitizeCore_identByte s, sanitizeCore_noLeadingDigit s, sanitizeCore_ne_nil s hne⟩)
  refine ⟨h.1, h.2.1, h.2.2.trans ?_⟩
  rw [List.map_eq_nil_iff, List.filter_eq_nil_iff]
  simp

/-! ## Lemmas on discovery -/

theorem getJobs_eq (g : JobGenerator) (env : Env)
    (url token username password apiVersion project : GoString) (w : World) :
    g.getJobs env url token username password apiVersion project w
      = (jobFetch env url token username password apiVersion project,
          { w with requests := w.requests
              ++ jobRequests env url token username password apiVersion project }) := by
  unfold jobFetch jobRequests JobGenerator.getJobs World.Do
  cases http.NewRequest env (lit "GET")
      (url ++ lit "/api/" ++ apiVersion ++ lit "/project/" ++ project ++ lit "/jobs") with
  | error e => simp
  | ok req =>
    simp only []
    generalize (if token ≠ [] then req.HeaderSet (lit "X-Rundeck-Auth-Token") token
      else if username ≠ [] ∧ password ≠ [] then req.SetBasicAuth username password
      else req).HeaderSet (lit "Accept") (lit "application/json") = r0
    generalize http.send r0 = r
    cases env.Do r with
    | error e => simp
    | ok resp =>
      simp only []
      by_cases hs : resp.StatusCode = 200
      · simp only [hs, ne_eq, not_true_eq_false, if_false]
        cases resp.ReadErr with
        | some e => simp
        | none =>
          simp only []
          cases env.unmarshalJobs resp.Body <;> simp
      · simp [hs]

theorem getProjects_eq (g : JobGenerator) (env : Env)
    (url token username password apiVersion : GoString) (w : World) :
    g.getProjects env url token username password apiVersion w
      = (projectFetch env url token username password apiVersion,
          { w with requests := w.requests
              ++ projectRequests env url token username password apiVersion }) := by
  unfold projectFetch projectRequests JobGenerator.getProjects World.Do
  cases http.NewRequest env (lit "GET") (url ++ lit "/api/" ++ apiVersion ++ lit "/projects") with
  | error e => simp
  | ok req =>
    simp only []
    generalize (if token ≠ [] then req.HeaderSet (lit "X-Rundeck-Auth-Token") token
      else if username ≠ [] ∧ password ≠ [] then req.SetBasicAuth username password
      else req).HeaderSet (lit "Accept") (lit "application/json") = r0
    generalize http.send r0 = r
    cases env.Do r with
    | error e => simp
    | ok resp =>
      simp only []
      by_cases hs : resp.StatusCode = 200
      · simp only [hs, ne_eq, not_true_eq_false, if_false]
        cases resp.ReadErr with
        | some e => simp
        | none =>
          simp only []
          cases env.unmarshalProjects resp.Body <;> simp
      · simp [hs]

theorem projectGenerator_getProjects_eq (pg : ProjectGenerator) (g : JobGenerator) (env : Env)
    (url token username password apiVersion : GoString) (w : World) :
    pg.getProjects env url token username password apiVersion w
      = g.getProjects env url token username password apiVersion w := rfl

theorem resourcesOfFetch_receiver (g g1 : JobGenerator) (r : Except error (List RundeckJob)) :
    resourcesOfFetch g1 r = resourcesOfFetch g r := by
  cases r <;> rfl

theorem resourcesOfFetch_error (g : JobGenerator) (e : error) :
    resourcesOfFetch g (.error e) = [] := rfl

theorem resourcesOfFetch_ok (g : JobGenerator) (jobs : List RundeckJob) :
    resourcesOfFetch g (.ok jobs) = g.createJobResources jobs := rfl

theorem jobFetch_congr (env env1 : Env) (url token username password apiVersion : GoString)
    (project : GoString) (hDo : env1.Do = env.Do) (hURL : env1.parseURL = env.parseURL)
    (hJobs : env1.unmarshalJobs = env.unmarshalJobs) :
    jobFetch env1 url token username password apiVersion project
      = jobFetch env url token username password apiVersion project := by
  unfold jobFetch JobGenerator.getJobs http.NewRequest World.Do
  rw [hDo, hURL, hJobs]

/-- The loop over the projects appends, project by project, the resources of the jobs
fetched, and changes nothing else in the generator. -/
theorem initResources_loop_eq (env : Env) (url token username password apiVersion : GoString)
    (projects : List RundeckProject) : ∀ (g : JobGenerator) (w : World),
    (JobGenerator.InitResources.loop env url token username password apiVersion projects g w).1
      = { g with Resources := g.Resources
            ++ discovered g env url token username password apiVersion projects } := by
  unfold discovered
  induction projects with
  | nil => intro g w; simp [JobGenerator.InitResources.loop]
  | cons p rest ih =>
    intro g w
    unfold JobGenerator.InitResources.loop
    rw [getJobs_eq]
    cases hf : jobFetch env url token username password apiVersion p.Name with
    | error e =>
      simp only [ih, List.flatMap_cons, hf, resourcesOfFetch_error, List.nil_append]
    | ok jobs =>
      have hr : ∀ r, resourcesOfFetch
          { g with Resources := g.Resources ++ g.createJobResources jobs } r
            = resourcesOfFetch g r := fun r => resourcesOfFetch_receiver _ _ r
      simp only [ih, List.flatMap_cons, hf, resourcesOfFetch_ok, List.append_assoc, hr]

theorem jobInitResources_unfold (g : JobGenerator) (env : Env) (w : World)
    (url token username password apiVersion : GoString)
    (hcfg : g.configured url token username password apiVersion) :
    g.InitResources env w =
      match g.getProjects env url token username password (effectiveVersion apiVersion) w with
      | (.error err, w) => some (some (lit "failed to get projects: " ++ err), g, w)
      | (.ok projects, w) =>
        some (none,
          JobGenerator.InitResources.loop env url token username password
            (effectiveVersion apiVersion) projects g w) := by
  obtain ⟨h1, h2, h3, h4, h5⟩ := hcfg
  unfold JobGenerator.InitResources
  simp only [h1, h2, h3, h4, h5, Value.assertString, Option.bind_eq_bind, Option.some_bind,
    effectiveVersion]

theorem projectInitResources_unfold (g : ProjectGenerator) (env : Env) (w : World)
    (url token username password apiVersion : GoString)
    (hcfg : g.configured url token username password apiVersion) :
    g.InitResources env w =
      match g.getProjects env url token username password (effectiveVersion apiVersion) w with
      | (.error err, w) => some (some (lit "failed to get projects: " ++ err), g, w)
      | (.ok projects, w) =>
        some (none,
          { g with Resources := g.Resources ++ g.createProjectResources projects }, w) := by
  obtain ⟨h1, h2, h3, h4, h5⟩ := hcfg
  unfold ProjectGenerator.InitResources
  simp only [h1, h2, h3, h4, h5, Value.assertString, Option.bind_eq_bind, Option.some_bind,
    effectiveVersion]

/-- What `InitResources` does once the projects are fetched: no error, and the resources of
every project whose jobs could be fetched, in the order of the projects. -/
theorem jobInitResources_ok (g : JobGenerator) (env : Env) (w : World)
    (url token username password apiVersion : GoString) (projects : List RundeckProject)
    (hcfg : g.configured url token username password apiVersion)
    (hproj : projectFetch env url token username password (effectiveVersion apiVersion)
      = .ok projects) :
    ∃ g1 w1, g.InitResources env w = some (none, g1, w1)
      ∧ g1 = { g with
          Resources := g.Resources ++ discovered g env url token username password
            (effectiveVersion apiVersion) projects } := by
  rw [jobInitResources_unfold g env w url token username password apiVersion hcfg,
    getProjects_eq, hproj]
  exact ⟨_, _, rfl, initResources_loop_eq env url token username password
    (effectiveVersion apiVersion) projects g _⟩

theorem flatMap_filter_of_nil {α β : Type} (f : α → List β) (c : α → Bool) (l : List α)
    (h : ∀ x ∈ l, c x = false → f x = []) : (l.filter c).flatMap f = l.flatMap f := by
  induction l with
  | nil => rfl
  | cons x xs ih =>
    have ih1 := ih fun y hy => h y (List.mem_cons_of_mem _ hy)
    cases hc : c x with
    | false =>
      rw [List.filter_cons_of_neg (by simp [hc]), List.flatMap_cons,
        h x (List.mem_cons_self _ _) hc, ih1, List.nil_append]
    | true =>
      rw [List.filter_cons_of_pos (by simp [hc]), List.flatMap_cons, List.flatMap_cons, ih1]

theorem flatMap_congr_mem {α β : Type} (f f1 : α → List β) (l : List α)
    (h : ∀ x ∈ l, f x = f1 x) : l.flatMap f = l.flatMap f1 := by
  induction l with
  | nil => rfl
  | cons x xs ih =>
    rw [List.flatMap_cons, List.flatMap_cons, h x (List.mem_cons_self _ _),
      ih fun y hy => h y (List.mem_cons_of_mem _ hy)]

theorem discovered_filter_fetchOk (g : JobGenerator) (env : Env)
    (url token username password apiVersion : GoString) (projects : List RundeckProject) :
    discovered g env url token username password apiVersion
        (projects.filter fun p =>
          fetchOk (jobFetch env url token username password apiVersion p.Name))
      = discovered g env url token username password apiVersion projects := by
  unfold discovered
  apply flatMap_filter_of_nil
  intro p _ hp
  cases hf : jobFetch env url token username password apiVersion p.Name with
  | error e => rfl
  | ok jobs => rw [hf] at hp; simp [fetchOk] at hp

theorem discovered_congr (g : JobGenerator) (env env1 : Env)
    (url token username password apiVersion : GoString) (projects : List RundeckProject)
    (hDo : env1.Do = env.Do) (hURL : env1.parseURL = env.parseURL)
    (hJobs : env1.unmarshalJobs = env.unmarshalJobs) :
    discovered g env1 url token username password apiVersion projects
      = discovered g env url token username password apiVersion projects := by
  unfold discovered
  apply flatMap_congr_mem
  intro p _
  rw [jobFetch_congr env env1 url token username password apiVersion p.Name hDo hURL hJobs]

/-- The generator `InitService` installs for `jobs` holds the configuration of the provider as
its arguments, and no resource yet. -/
theorem initService_jobs (p : RundeckProvider) (verbose : Bool) :
    ∃ g : JobGenerator, (p.InitService (lit "jobs") verbose).2.Service = some (.jobs g)
      ∧ g.configured p.url p.token p.username p.password p.apiVersion
      ∧ g.Resources = [] ∧ g.Verbose = verbose := by
  refine ⟨_, rfl, ?_, rfl, rfl⟩
  unfold Service.configured
  refine ⟨?_, ?_, ?_, ?_, ?_⟩ <;> rfl

theorem requests_sentSince (w : World) (sent : List Request) :
    World.sentSince { w with requests := w.requests ++ sent } w = sent := by
  simp [World.sentSince]

theorem projectRequests_eq (env : Env) (url token username password apiVersion : GoString) :
    projectRequests env url token username password apiVersion =
      match env.parseURL (url ++ lit "/api/" ++ apiVersion ++ lit "/projects") with
      | .error _ => []
      | .ok user =>
        [http.send (builtRequest user (url ++ lit "/api/" ++ apiVersion ++ lit "/projects")
          token username password)] := by
  unfold projectRequests JobGenerator.getProjects World.Do http.NewRequest builtRequest
  cases env.parseURL (url ++ lit "/api/" ++ apiVersion ++ lit "/projects") with
  | error e => rfl
  | ok user =>
    simp only []
    generalize (if token ≠ [] then
      Request.HeaderSet
        { Method := lit "GET", URL := url ++ lit "/api/" ++ apiVersion ++ lit "/projects",
          User := user, Header := [] }
        (lit "X-Rundeck-Auth-Token") token
      else if username ≠ [] ∧ password ≠ [] then
        Request.SetBasicAuth
          { Method := lit "GET", URL := url ++ lit "/api/" ++ apiVersion ++ lit "/projects",
            User := user, Header := [] }
          username password
      else
        { Method := lit "GET", URL := url ++ lit "/api/" ++ apiVersion ++ lit "/projects",
          User := user, Header := [] }).HeaderSet (lit "Accept") (lit "application/json") = r0
    generalize http.send r0 = r
    cases env.Do r with
    | error e => simp
    | ok resp =>
      simp only []
      by_cases hs : resp.StatusCode = 200
      · simp only [hs, ne_eq, not_true_eq_false, if_false]
        cases resp.ReadErr with
        | some e => simp
        | none =>
          simp only []
          cases env.unmarshalProjects resp.Body <;> simp
      · simp [hs]

theorem jobRequests_eq (env : Env) (url token username password apiVersion : GoString)
    (project : GoString) :
    jobRequests env url token username password apiVersion project =
      match env.parseURL
          (url ++ lit "/api/" ++ apiVersion ++ lit "/project/" ++ project ++ lit "/jobs") with
      | .error _ => []
      | .ok user =>
        [http.send (builtRequest user
          (url ++ lit "/api/" ++ apiVersion ++ lit "/project/" ++ project ++ lit "/jobs")
          token username password)] := by
  unfold jobRequests JobGenerator.getJobs World.Do http.NewRequest builtRequest
  cases env.parseURL
      (url ++ lit "/api/" ++ apiVersion ++ lit "/project/" ++ project ++ lit "/jobs") with
  | error e => rfl
  | ok user =>
    simp only []
    generalize (if token ≠ [] then
      Request.HeaderSet
        { Method := lit "GET",
          URL := url ++ lit "/api/" ++ apiVersion ++ lit "/project/" ++ project ++ lit "/jobs",
          User := user, Header := [] }
        (lit "X-Rundeck-Auth-Token") token
      else if username ≠ [] ∧ password ≠ [] then
        Request.SetBasicAuth
          { Method := lit "GET",
            URL := url ++ lit "/api/" ++ apiVersion ++ lit "/project/" ++ project ++ lit "/jobs",
            User := user, Header := [] }
          username password
      else
        { Method := lit "GET",
          URL := url ++ lit "/api/" ++ apiVersion ++ lit "/project/" ++ project ++ lit "/jobs",
          User := user, Header := [] }).HeaderSet (lit "Accept") (lit "application/json") = r0
    generalize http.send r0 = r
    cases env.Do r with
    | error e => simp
    | ok resp =>
      simp only []
      by_cases hs : resp.StatusCode = 200
      · simp only [hs, ne_eq, not_true_eq_false, if_false]
        cases resp.ReadErr with
        | some e => simp
        | none =>
          simp only []
          cases env.unmarshalJobs resp.Body <;> simp
      · simp [hs]

theorem mem_projectRequests (env : Env) (url token username password apiVersion : GoString)
    (req : Request) (h : req ∈ projectRequests env url token username password apiVersion) :
    ∃ user, req = http.send (builtRequest user
      (url ++ lit "/api/" ++ apiVersion ++ lit "/projects") token username password) := by
  rw [projectRequests_eq] at h
  split at h
  · exact absurd h (List.not_mem_nil _)
  · exact ⟨_, List.mem_singleton.mp h⟩

theorem mem_jobRequests (env : Env) (url token username password apiVersion : GoString)
    (project : GoString) (req : Request)
    (h : req ∈ jobRequests env url token username password apiVersion project) :
    ∃ user, req = http.send (builtRequest user
      (url ++ lit "/api/" ++ apiVersion ++ lit "/project/" ++ project ++ lit "/jobs")
      token username password) := by
  rw [jobRequests_eq] at h
  split at h
  · exact absurd h (List.not_mem_nil _)
  · exact ⟨_, List.mem_singleton.mp h⟩

theorem projectsURL_ne_jobsURL (url apiVersion project : GoString) :
    url ++ lit "/api/" ++ apiVersion ++ lit "/projects"
      ≠ url ++ lit "/api/" ++ apiVersion ++ lit "/project/" ++ project ++ lit "/jobs" := by
  have h1 : lit "/projects" = lit "/project" ++ ['s'.toNat] := by decide
  have h2 : lit "/project/" = lit "/project" ++ ['/'.toNat] := by decide
  rw [h1, h2]
  simp only [List.append_assoc, ne_eq, List.append_cancel_left_eq, List.singleton_append,
    List.cons.injEq, Char.reduceToNat]
  intro h
  have h0 := congrArg List.head? h
  simp at h0

/-- The three ways fetching the projects fails once the request is built: a transport error, a
status other than 200, a body that does not decode. -/
theorem projectFetch_failure_kinds (env : Env) (url token username password apiVersion : GoString)
    (e : error) (resp : Response) (user : Option (GoString × GoString))
    (hURL : env.parseURL (url ++ lit "/api/" ++ apiVersion ++ lit "/projects") = .ok user) :
    (env.Do (http.send (builtRequest user (url ++ lit "/api/" ++ apiVersion ++ lit "/projects")
          token username password)) = .error e →
        projectFetch env url token username password apiVersion = .error e)
      ∧ (env.Do (http.send (builtRequest user
          (url ++ lit "/api/" ++ apiVersion ++ lit "/projects") token username password))
          = .ok resp → resp.StatusCode ≠ 200 →
        projectFetch env url token username password apiVersion
          = .error (lit "API request failed with status " ++ strconv.Itoa resp.StatusCode
              ++ lit ": " ++ resp.Body))
      ∧ (env.Do (http.send (builtRequest user
          (url ++ lit "/api/" ++ apiVersion ++ lit "/projects") token username password))
          = .ok resp → resp.StatusCode = 200 → resp.ReadErr = none →
        env.unmarshalProjects resp.Body = .error e →
        projectFetch env url token username password apiVersion = .error e) := by
  unfold projectFetch JobGenerator.getProjects World.Do http.NewRequest builtRequest
  rw [hURL]
  refine ⟨?_, ?_, ?_⟩
  · intro h
    simp only [h]
  · intro h hs
    simp only [h, hs, ne_eq, not_false_eq_true, if_true]
  · intro h hs hr hu
    simp only [h, hs, hr, hu, ne_eq, not_true_eq_false, if_false]

theorem send_URL (req : Request) : (http.send req).URL = req.URL := by
  unfold http.send Request.SetBasicAuth Request.HeaderSet
  split
  · split_ifs <;> rfl
  · rfl

theorem send_of_no_userinfo (req : Request) (h : req.User = none) : http.send req = req := by
  unfold http.send
  rw [h]

theorem builtRequest_URL (user : Option (GoString × GoString))
    (u token username password : GoString) :
    (builtRequest user u token username password).URL = u := by
  unfold builtRequest Request.SetBasicAuth Request.HeaderSet
  split_ifs <;> rfl

theorem builtRequest_User (user : Option (GoString × GoString))
    (u token username password : GoString) :
    (builtRequest user u token username password).User = user := by
  unfold builtRequest Request.SetBasicAuth Request.HeaderSet
  split_ifs <;> rfl

theorem builtRequest_auth (user : Option (GoString × GoString))
    (u token username password : GoString) :
    authSelected token username password (builtRequest user u token username password)
      ∧ atMostOneAuth (builtRequest user u token username password) := by
  have k1 : (lit "X-Rundeck-Auth-Token" == lit "Accept") = false := by decide
  have k2 : (lit "Authorization" == lit "Accept") = false := by decide
  have k3 : (lit "Authorization" == lit "X-Rundeck-Auth-Token") = false := by decide
  have k4 : (lit "X-Rundeck-Auth-Token" == lit "Authorization") = false := by decide
  have k5 : ¬ (lit "X-Rundeck-Auth-Token" = lit "Accept") := by decide
  have k6 : ¬ (lit "Authorization" = lit "Accept") := by decide
  unfold authSelected atMostOneAuth builtRequest Request.SetBasicAuth Request.HeaderSet
    Request.HeaderGet
  by_cases ht : token = []
  · by_cases hup : username ≠ [] ∧ password ≠ []
    · simp [ht, hup, List.lookup, List.filter, k1, k2, k3, k4, k5, k6]
    · simp [ht, hup, List.lookup, List.filter, k1, k2, k3, k4, k5, k6]
  · simp [ht, List.lookup, List.filter, k1, k2, k3, k4, k5, k6]

/-- The client leaves a request with Basic authentication as it is, whatever the URL carries. -/
theorem send_builtRequest_basic (user : Option (GoString × GoString))
    (u token username password : GoString) (ht : token = [])
    (hup : username ≠ [] ∧ password ≠ []) :
    http.send (builtRequest user u token username password)
      = builtRequest user u token username password := by
  have k2 : (lit "Authorization" == lit "Accept") = false := by decide
  have k6 : ¬ (lit "Authorization" = lit "Accept") := by decide
  have kb : lit "Basic " = 'B'.toNat :: (lit "asic ") := by decide
  cases user with
  | none => exact send_of_no_userinfo _ (builtRequest_User none u token username password)
  | some up =>
    obtain ⟨a, b⟩ := up
    unfold http.send builtRequest
    simp [ht, hup, Request.SetBasicAuth, Request.HeaderSet, Request.HeaderGet, List.lookup,
      List.filter, k2, k6, kb]

/-! ## The claims on discovery -/

/-- C4, order preservation: when the projects are fetched and the jobs of every project are
fetched, `JobGenerator.InitResources` returns no error and appends to the resource list the
job resources of the projects, project after project in the order of the project list and,
within a project, in the order the jobs were returned; leaving out the projects without jobs
gives the same list. -/
theorem order_preservation (env : Env) (g : JobGenerator) (w : World)
    (url token username password apiVersion : GoString) (projects : List RundeckProject)
    (jobsOf : GoString → List RundeckJob)
    (hcfg : g.configured url token username password apiVersion)
    (hproj : projectFetch env url token username password (effectiveVersion apiVersion)
      = .ok projects)
    (hjobs : ∀ p ∈ projects,
      jobFetch env url token username password (effectiveVersion apiVersion) p.Name
        = .ok (jobsOf p.Name)) :
    ∃ g1 w1, g.InitResources env w = some (none, g1, w1)
      ∧ g1.Resources
          = g.Resources ++ projects.flatMap (fun p => g.createJobResources (jobsOf p.Name))
      ∧ g1.Resources
          = g.Resources ++ (projects.filter fun p => jobsOf p.Name ≠ []).flatMap
              (fun p => g.createJobResources (jobsOf p.Name)) := by
  obtain ⟨g1, w1, h, hg1⟩ :=
    jobInitResources_ok g env w url token username password apiVersion projects hcfg hproj
  have hd : discovered g env url token username password (effectiveVersion apiVersion) projects
      = projects.flatMap (fun p => g.createJobResources (jobsOf p.Name)) := by
    unfold discovered
    apply flatMap_congr_mem
    intro p hp
    rw [hjobs p hp, resourcesOfFetch_ok]
  refine ⟨g1, w1, h, ?_, ?_⟩
  · rw [hg1, hd]
  · rw [hg1, hd, flatMap_filter_of_nil]
    intro p _ hp
    have : jobsOf p.Name = [] := by simpa using hp
    rw [this]
    rfl

/-- C4 on three projects `P1`, `P2`, `P3` whose job lists are `[J1a]`, `[]` and `[J3a, J3b]`:
the resources come out as those of `J1a`, `J3a`, `J3b`. -/
theorem order_preservation_witness :
    demoJobGenerator.configured (lit "http://rd") (lit "t0k") (lit "admin") (lit "pw") []
      ∧ projectFetch (demoEnv [lit "P1", lit "P2", lit "P3"] []) (lit "http://rd") (lit "t0k")
          (lit "admin") (lit "pw") (effectiveVersion []) = .ok demoProjects
      ∧ (∀ p ∈ demoProjects,
          jobFetch (demoEnv [lit "P1", lit "P2", lit "P3"] []) (lit "http://rd") (lit "t0k")
            (lit "admin") (lit "pw") (effectiveVersion []) p.Name = .ok (demoJobsOf p.Name))
      ∧ ∃ g1 w1, demoJobGenerator.InitResources
            (demoEnv [lit "P1", lit "P2", lit "P3"] []) {} = some (none, g1, w1)
          ∧ g1.Resources = demoJobGenerator.createJobResources [demoJ1a, demoJ3a, demoJ3b] := by
  refine ⟨by decide, by decide, by decide, ?_⟩
  obtain ⟨g1, w1, h, hr, _⟩ := order_preservation
    (demoEnv [lit "P1", lit "P2", lit "P3"] []) demoJobGenerator {}
    (lit "http://rd") (lit "t0k") (lit "admin") (lit "pw") [] demoProjects demoJobsOf
    (by decide) (by decide) (by decide)
  exact ⟨g1, w1, h, hr.trans (by decide)⟩

/-- C5, partial-failure isolation: when the projects are fetched, `JobGenerator.InitResources`
returns no error whichever job fetches fail, and appends the resources of the projects whose
jobs could be fetched, in order; a run against a remote side that differs only in leaving the
failing projects out of the project list returns the same error and resource list, and so
does a run with the other verbosity. -/
theorem partial_failure_isolation (env env1 : Env) (g : JobGenerator) (w : World)
    (url token username password apiVersion : GoString) (projects : List RundeckProject)
    (verbose : Bool)
    (hcfg : g.configured url token username password apiVersion)
    (hproj : projectFetch env url token username password (effectiveVersion apiVersion)
      = .ok projects)
    (hDo : env1.Do = env.Do) (hURL : env1.parseURL = env.parseURL)
    (hJobs : env1.unmarshalJobs = env.unmarshalJobs)
    (hproj1 : projectFetch env1 url token username password (effectiveVersion apiVersion)
      = .ok (projects.filter fun p => fetchOk
          (jobFetch env url token username password (effectiveVersion apiVersion) p.Name))) :
    (∃ g1 w1, g.InitResources env w = some (none, g1, w1)
        ∧ g1.Resources = g.Resources
            ++ discovered g env url token username password (effectiveVersion apiVersion)
              (projects.filter fun p => fetchOk
                (jobFetch env url token username password (effectiveVersion apiVersion) p.Name)))
      ∧ JobGenerator.observed (g.InitResources env1 w)
          = JobGenerator.observed (g.InitResources env w)
      ∧ JobGenerator.observed (JobGenerator.InitResources { g with Verbose := verbose } env w)
          = JobGenerator.observed (g.InitResources env w) := by
  obtain ⟨g1, w1, h, hg1⟩ :=
    jobInitResources_ok g env w url token username password apiVersion projects hcfg hproj
  obtain ⟨g2, w2, h2, hg2⟩ :=
    jobInitResources_ok g env1 w url token username password apiVersion _ hcfg hproj1
  obtain ⟨g3, w3, h3, hg3⟩ :=
    jobInitResources_ok { g with Verbose := verbose } env w url token username password
      apiVersion projects hcfg hproj
  refine ⟨⟨g1, w1, h, ?_⟩, ?_, ?_⟩
  · rw [hg1, discovered_filter_fetchOk]
  · rw [h, h2, hg1, hg2,
      discovered_congr g env env1 url token username password _ _ hDo hURL hJobs,
      discovered_filter_fetchOk]
    rfl
  · rw [h, h3, hg1, hg3]
    rfl

/-- C5 on the projects `P1`, `P2`, `P3` when the job list of `P2` is answered with status
500: no error, and the resources of `J1a`, `J3a`, `J3b`, as when the project list is `P1`, `P3`
and as when the generator is not verbose. -/
theorem partial_failure_isolation_witness :
    demoJobGenerator.configured (lit "http://rd") (lit "t0k") (lit "admin") (lit "pw") []
      ∧ projectFetch (demoEnv [lit "P1", lit "P2", lit "P3"] [lit "P2"]) (lit "http://rd")
          (lit "t0k") (lit "admin") (lit "pw") (effectiveVersion []) = .ok demoProjects
      ∧ jobFetch (demoEnv [lit "P1", lit "P2", lit "P3"] [lit "P2"]) (lit "http://rd")
          (lit "t0k") (lit "admin") (lit "pw") (effectiveVersion []) (lit "P2")
          = .error (lit "API request failed with status 500: boom")
      ∧ projectFetch (demoEnv [lit "P1", lit "P3"] [lit "P2"]) (lit "http://rd")
          (lit "t0k") (lit "admin") (lit "pw") (effectiveVersion [])
          = .ok [{ Name := lit "P1" }, { Name := lit "P3" }]
      ∧ (∃ g1 w1, demoJobGenerator.InitResources
            (demoEnv [lit "P1", lit "P2", lit "P3"] [lit "P2"]) {} = some (none, g1, w1)
          ∧ g1.Resources = demoJobGenerator.createJobResources [demoJ1a, demoJ3a, demoJ3b])
      ∧ JobGenerator.observed
          (demoJobGenerator.InitResources (demoEnv [lit "P1", lit "P3"] [lit "P2"]) {})
        = JobGenerator.observed
          (demoJobGenerator.InitResources (demoEnv [lit "P1", lit "P2", lit "P3"] [lit "P2"]) {})
      ∧ JobGenerator.observed
          (JobGenerator.InitResources { demoJobGenerator with Verbose := false }
            (demoEnv [lit "P1", lit "P2", lit "P3"] [lit "P2"]) {})
        = JobGenerator.observed
          (demoJobGenerator.InitResources (demoEnv [lit "P1", lit "P2", lit "P3"] [lit "P2"]) {})
      := by
  refine ⟨by decide, by decide, by decide, by decide, ?_⟩
  obtain ⟨⟨g1, w1, h, hr⟩, h2, h3⟩ := partial_failure_isolation
    (demoEnv [lit "P1", lit "P2", lit "P3"] [lit "P2"])
    (demoEnv [lit "P1", lit "P3"] [lit "P2"]) demoJobGenerator {}
    (lit "http://rd") (lit "t0k") (lit "admin") (lit "pw") [] demoProjects false
    (by decide) (by decide) rfl rfl rfl (by decide)
  exact ⟨⟨g1, w1, h, hr.trans (by decide)⟩, h2, h3⟩

/-- C6, the project phase is fatal: when fetching the projects fails, `InitResources` of the
job generator and of the project generator return an error and leave the generator, its
resource list included, as it was; the job generator sends nothing beyond what fetching the
projects sent, which is at most one request, to the projects URL. -/
theorem project_phase_failure_fatal (env : Env) (g : JobGenerator) (pg : ProjectGenerator)
    (w : World) (url token username password apiVersion : GoString) (err : error)
    (hg : g.configured url token username password apiVersion)
    (hpg : pg.configured url token username password apiVersion)
    (hfail : projectFetch env url token username password (effectiveVersion apiVersion)
      = .error err) :
    g.InitResources env w = some (some (lit "failed to get projects: " ++ err), g,
        (g.getProjects env url token username password (effectiveVersion apiVersion) w).2)
      ∧ pg.InitResources env w = some (some (lit "failed to get projects: " ++ err), pg,
        (pg.getProjects env url token username password (effectiveVersion apiVersion) w).2)
      ∧ (World.sentSince
          (g.getProjects env url token username password (effectiveVersion apiVersion) w).2
          w).length ≤ 1
      ∧ ∀ req ∈ World.sentSince
          (g.getProjects env url token username password (effectiveVersion apiVersion) w).2 w,
        req.URL = url ++ lit "/api/" ++ effectiveVersion apiVersion ++ lit "/projects"
          ∧ ∀ project : GoString, req.URL ≠ url ++ lit "/api/" ++ effectiveVersion apiVersion
              ++ lit "/project/" ++ project ++ lit "/jobs" := by
  refine ⟨?_, ?_, ?_, ?_⟩
  · rw [jobInitResources_unfold g env w url token username password apiVersion hg,
      getProjects_eq, hfail]
  · rw [projectInitResources_unfold pg env w url token username password apiVersion hpg,
      projectGenerator_getProjects_eq pg g, getProjects_eq, hfail]
  · rw [getProjects_eq, requests_sentSince, projectRequests_eq]
    split <;> simp
  · intro req hreq
    rw [getProjects_eq, requests_sentSince] at hreq
    obtain ⟨user, rfl⟩ := mem_projectRequests env url token username password _ req hreq
    rw [send_URL, builtRequest_URL]
    exact ⟨rfl, projectsURL_ne_jobsURL url (effectiveVersion apiVersion)⟩

/-- C6 on a remote side that answers the projects request with status 500: both generators
return an error and keep their empty resource list, and one request was sent. -/
theorem project_phase_failure_fatal_witness :
    demoJobGenerator.configured (lit "http://rd") (lit "t0k") (lit "admin") (lit "pw") []
      ∧ demoProjectGenerator.configured (lit "http://rd") (lit "t0k") (lit "admin") (lit "pw") []
      ∧ projectFetch downEnv (lit "http://rd") (lit "t0k") (lit "admin") (lit "pw")
          (effectiveVersion []) = .error (lit "API request failed with status 500: down")
      ∧ (∃ w1, demoJobGenerator.InitResources downEnv {}
            = some (some (lit "failed to get projects: "
                ++ lit "API request failed with status 500: down"), demoJobGenerator, w1)
          ∧ w1.requests.length = 1)
      ∧ (∃ w1, demoProjectGenerator.InitResources downEnv {}
            = some (some (lit "failed to get projects: "
                ++ lit "API request failed with status 500: down"), demoProjectGenerator, w1))
      ∧ demoJobGenerator.Resources = [] ∧ demoProjectGenerator.Resources = [] := by
  refine ⟨by decide, by decide, by decide, ?_⟩
  obtain ⟨h1, h2, _, _⟩ := project_phase_failure_fatal downEnv demoJobGenerator
    demoProjectGenerator {} (lit "http://rd") (lit "t0k") (lit "admin") (lit "pw") []
    (lit "API request failed with status 500: down") (by decide) (by decide) (by decide)
  refine ⟨⟨_, h1, ?_⟩, ⟨_, h2⟩, by decide, by decide⟩
  decide

/-- C7, unsupported kinds are rejected: `InitService` returns an error exactly when the
service name is neither `jobs` nor `projects`, and then leaves the provider, its selected
service included, as it was; `widgets` is rejected. -/
theorem unsupported_kind_rejection (p : RundeckProvider) (k : GoString) (verbose : Bool) :
    ((p.InitService k verbose).1 ≠ none ↔ ¬ (k = lit "jobs" ∨ k = lit "projects"))
      ∧ ((p.InitService k verbose).1 ≠ none → (p.InitService k verbose).2 = p)
      ∧ (p.InitService (lit "widgets") verbose).1 ≠ none := by
  have key : ∀ k : GoString, (k = lit "jobs" ∨ k = lit "projects")
      ∨ (p.InitService k verbose).1 ≠ none ∧ (p.InitService k verbose).2 = p
          ∧ ¬ (k = lit "jobs" ∨ k = lit "projects") := by
    intro k
    by_cases h1 : k = lit "jobs"
    · exact Or.inl (Or.inl h1)
    · by_cases h2 : k = lit "projects"
      · exact Or.inl (Or.inr h2)
      · right
        have b1 : (k == lit "jobs") = false := by
          rw [beq_eq_false_iff_ne]
          exact h1
        have b2 : (k == lit "projects") = false := by
          rw [beq_eq_false_iff_ne]
          exact h2
        simp [RundeckProvider.InitService, RundeckProvider.GetSupportedService, List.lookup,
          h1, h2, b1, b2]
  refine ⟨⟨?_, ?_⟩, ?_, ?_⟩
  · intro he hk
    rcases hk with rfl | rfl
    · exact he rfl
    · exact he rfl
  · intro hk
    rcases key k with h | h
    · exact absurd h hk
    · exact h.1
  · intro he
    rcases key k with h | h
    · rcases h with rfl | rfl
      · exact absurd rfl he
      · exact absurd rfl he
    · exact h.2.1
  · rcases key (lit "widgets") with h | h
    · exact absurd h (by decide)
    · exact h.1

/-- C8 as stated fails: for the URL `http://u:p@rd`, which carries userinfo, and a token (user
name and password present as well), the request `getProjects` sends, and likewise the request
`getJobs` sends, carries the token header and Basic authentication for `u:p`, two mechanisms
at once. -/
theorem auth_selection_counterexample :
    World.sentSince
        (demoJobGenerator.getProjects userinfoEnv (lit "http://u:p@rd") (lit "t0k") (lit "admin")
          (lit "pw") (lit "38") {}).2 {} = [userinfoProjectsRequest]
      ∧ World.sentSince
        (demoProjectGenerator.getProjects userinfoEnv (lit "http://u:p@rd") (lit "t0k")
          (lit "admin") (lit "pw") (lit "38") {}).2 {} = [userinfoProjectsRequest]
      ∧ World.sentSince
        (demoJobGenerator.getJobs userinfoEnv (lit "http://u:p@rd") (lit "t0k") (lit "admin")
          (lit "pw") (lit "38") (lit "P1") {}).2 {} = [userinfoJobsRequest]
      ∧ userinfoProjectsRequest.HeaderGet (lit "X-Rundeck-Auth-Token") = some (lit "t0k")
      ∧ userinfoProjectsRequest.HeaderGet (lit "Authorization")
          = some (lit "Basic " ++ base64.EncodeToString (lit "u:p"))
      ∧ ¬ authSelected (lit "t0k") (lit "admin") (lit "pw") userinfoProjectsRequest
      ∧ ¬ atMostOneAuth userinfoProjectsRequest
      ∧ ¬ authSelected (lit "t0k") (lit "admin") (lit "pw") userinfoJobsRequest
      ∧ ¬ atMostOneAuth userinfoJobsRequest := by
  refine ⟨?_, ?_, ?_, ?_, ?_, ?_, ?_, ?_, ?_⟩ <;> decide

/-- C8, amended: when the URL is accepted, `getProjects` (of either generator) and `getJobs`
send exactly one request, the one the client makes of the request they build, and nothing
otherwise. The request they build carries the token header and no Basic authentication when
the token is non-empty, Basic authentication and no token header when the token is empty and
user name and password are both non-empty, and neither otherwise, never both. The client
sends it unchanged when the URL carries no userinfo or Basic authentication was chosen. -/
theorem auth_selection_built (env : Env) (g : JobGenerator) (pg : ProjectGenerator)
    (url token username password apiVersion project : GoString) (w : World) :
    (World.sentSince (g.getProjects env url token username password apiVersion w).2 w
        = match env.parseURL (url ++ lit "/api/" ++ apiVersion ++ lit "/projects") with
          | .error _ => []
          | .ok user =>
            [http.send (builtRequest user (url ++ lit "/api/" ++ apiVersion ++ lit "/projects")
              token username password)])
      ∧ (World.sentSince (pg.getProjects env url token username password apiVersion w).2 w
        = match env.parseURL (url ++ lit "/api/" ++ apiVersion ++ lit "/projects") with
          | .error _ => []
          | .ok user =>
            [http.send (builtRequest user (url ++ lit "/api/" ++ apiVersion ++ lit "/projects")
              token username password)])
      ∧ (World.sentSince (g.getJobs env url token username password apiVersion project w).2 w
        = match env.parseURL
              (url ++ lit "/api/" ++ apiVersion ++ lit "/project/" ++ project ++ lit "/jobs") with
          | .error _ => []
          | .ok user =>
            [http.send (builtRequest user
              (url ++ lit "/api/" ++ apiVersion ++ lit "/project/" ++ project ++ lit "/jobs")
              token username password)])
      ∧ (∀ (user : Option (GoString × GoString)) (u : GoString),
          authSelected token username password (builtRequest user u token username password)
            ∧ atMostOneAuth (builtRequest user u token username password))
      ∧ (∀ (user : Option (GoString × GoString)) (u : GoString),
          user = none ∨ (token = [] ∧ username ≠ [] ∧ password ≠ []) →
            http.send (builtRequest user u token username password)
              = builtRequest user u token username password) := by
  refine ⟨?_, ?_, ?_, ?_, ?_⟩
  · rw [getProjects_eq, requests_sentSince, projectRequests_eq]
  · rw [projectGenerator_getProjects_eq pg g, getProjects_eq, requests_sentSince,
      projectRequests_eq]
  · rw [getJobs_eq, requests_sentSince, jobRequests_eq]
  · exact fun user u => builtRequest_auth user u token username password
  · rintro user u (h | ⟨ht, hup⟩)
    · exact send_of_no_userinfo _ ((builtRequest_User user u token username password).trans h)
    · exact send_builtRequest_basic user u token username password ht hup

/-- C8, amended, on a URL without userinfo, with a token, a user name and a password all
present: each of the three functions sends one request, which carries the token and no
`Authorization` header. -/
theorem auth_selection_built_witness :
    World.sentSince
        (demoJobGenerator.getProjects (demoEnv [] []) (lit "http://rd") (lit "t0k") (lit "admin")
          (lit "pw") (lit "38") {}).2 {} = [demoProjectsRequest]
      ∧ World.sentSince
        (demoProjectGenerator.getProjects (demoEnv [] []) (lit "http://rd") (lit "t0k")
          (lit "admin") (lit "pw") (lit "38") {}).2 {} = [demoProjectsRequest]
      ∧ World.sentSince
        (demoJobGenerator.getJobs (demoEnv [] []) (lit "http://rd") (lit "t0k") (lit "admin")
          (lit "pw") (lit "38") (lit "P1") {}).2 {} = [demoJobsRequest]
      ∧ (authSelected (lit "t0k") (lit "admin") (lit "pw") demoProjectsRequest
        ∧ atMostOneAuth demoProjectsRequest)
      ∧ (authSelected (lit "t0k") (lit "admin") (lit "pw") demoJobsRequest
        ∧ atMostOneAuth demoJobsRequest)
      ∧ demoJobsRequest.HeaderGet (lit "X-Rundeck-Auth-Token") = some (lit "t0k")
      ∧ demoJobsRequest.HeaderGet (lit "Authorization") = none := by
  obtain ⟨h1, h2, h3, h4, _⟩ := auth_selection_built (demoEnv [] []) demoJobGenerator
    demoProjectGenerator (lit "http://rd") (lit "t0k") (lit "admin") (lit "pw") (lit "38")
    (lit "P1") {}
  have hp : builtRequest none (lit "http://rd/api/38/projects") (lit "t0k") (lit "admin")
      (lit "pw") = demoProjectsRequest := by decide
  have hj : builtRequest none (lit "http://rd/api/38/project/P1/jobs") (lit "t0k") (lit "admin")
      (lit "pw") = demoJobsRequest := by decide
  refine ⟨h1.trans (by decide), h2.trans (by decide), h3.trans (by decide), ?_, ?_,
    by decide, by decide⟩
  · rw [← hp]
    exact h4 none _
  · rw [← hj]
    exact h4 none _
